import Mathlib

/-!
Verification development for a conversational bookkeeping bot for drivers
(single source file `main.py`).  The relevant parts of the program are
shallowly embedded below:

* money amounts are modelled as exact rationals (`Q`, a gcd-normalised
  numerator/denominator pair) rather than IEEE floats; the Python float
  literals accepted by the program's amount validator denote exact decimal
  values, which `Q` represents exactly (the special floating values
  `inf`/`nan` and digit-group underscores of Python's `float()` are outside
  the model);
* timestamps are modelled as natural numbers counting UTC seconds; the
  program stores ISO-8601 strings and compares them with string comparison,
  which for the fixed `isoformat()` layout agrees with chronological order;
* `str.strip`, `str.upper`, `LOWER` of SQLite (ASCII-only), Python's
  `float()` grammar, the plate regular expression (Latin and basic Cyrillic
  letter ranges, as in the source pattern) and `datetime.fromisoformat` for
  `YYYY-MM-DD` calendar dates are embedded as executable functions on
  character lists.
-/

/-- Whitespace for the model of Python `str.strip` (ASCII whitespace:
space, tab, newline, carriage return, vertical tab, form feed). -/
def pySpace (c : Char) : Bool :=
  c.toNat = 32 || c.toNat = 9 || c.toNat = 10 || c.toNat = 13 ||
    c.toNat = 11 || c.toNat = 12

/-- Model of Python `str.strip()` on a character list: drop leading and
trailing whitespace. -/
def stripL (l : List Char) : List Char :=
  (((l.dropWhile pySpace).reverse.dropWhile pySpace)).reverse

/-- Model of Python `str.strip()` on strings. -/
def pyStrip (s : String) : String :=
  String.mk (stripL s.data)

/-- Model of Python `str.upper()` restricted to the character ranges the
program can meet in a licence plate: ASCII letters and the basic Cyrillic
letters allowed by the plate pattern (`а`..`я` and `ё`). Other characters
are left unchanged. -/
def upperChar (c : Char) : Char :=
  if 97 ≤ c.toNat ∧ c.toNat ≤ 122 then Char.ofNat (c.toNat - 32)
  else if 1072 ≤ c.toNat ∧ c.toNat ≤ 1103 then Char.ofNat (c.toNat - 32)
  else if c.toNat = 1105 then Char.ofNat 1025
  else c

/-- Model of SQLite `LOWER` (ASCII-only case folding). -/
def lowerAsciiChar (c : Char) : Char :=
  if 65 ≤ c.toNat ∧ c.toNat ≤ 90 then Char.ofNat (c.toNat + 32) else c

/-- Model of SQLite `LOWER` on strings. -/
def lowerAscii (s : String) : String :=
  String.mk (s.data.map lowerAsciiChar)

/-- ASCII digit test (model of the digit tests the program performs). -/
def pyIsDigit (c : Char) : Bool :=
  48 ≤ c.toNat && c.toNat ≤ 57

/-- Exact rational number: numerator and positive denominator, produced in
gcd-normalised form by `qmk`.  Stands in for the Python floats the program
uses for money amounts. -/
structure Q where
  num : Int
  den : Nat
  deriving DecidableEq

/-- Normalising constructor for `Q` (mirrors rational normalisation; a zero
denominator never arises from the embedded code and is mapped to 0). -/
def qmk (n : Int) (d : Nat) : Q :=
  if d = 0 then ⟨0, 1⟩
  else
    let g := n.natAbs.gcd d
    ⟨n / Int.ofNat g, d / g⟩

/-- Integer as a `Q`. -/
def qint (n : Int) : Q := ⟨n, 1⟩

/-- Addition on `Q`. -/
def qadd (a b : Q) : Q :=
  qmk (a.num * Int.ofNat b.den + b.num * Int.ofNat a.den) (a.den * b.den)

/-- Subtraction on `Q`. -/
def qsub (a b : Q) : Q :=
  qmk (a.num * Int.ofNat b.den - b.num * Int.ofNat a.den) (a.den * b.den)

/-- Sum of a list of amounts, folding from the left starting at 0, as
Python's `sum` does. -/
def qsum (l : List Q) : Q := l.foldl qadd (qint 0)

/-- Strict positivity of a `Q` (the denominator is positive by
construction, so the sign is the sign of the numerator). -/
def qpos (a : Q) : Bool := decide (0 < a.num)

/-- Comparison `a ≤ b` on `Q`. -/
def qleB (a b : Q) : Bool :=
  decide (a.num * Int.ofNat b.den ≤ b.num * Int.ofNat a.den)

/-- Value of a digit list read in base 10. -/
def digitsToNat (l : List Char) : Nat :=
  l.foldl (fun a c => 10 * a + (c.toNat - 48)) 0

/-- Split a character list at every comma, keeping empty segments, as
Python's `str.split(",")` does. -/
def splitComma : List Char → List (List Char)
  | [] => [[]]
  | c :: t =>
    if c = ',' then [] :: splitComma t
    else
      match splitComma t with
      | [] => [[c]]
      | h :: r => (c :: h) :: r

/-- List starts with the given first argument. -/
def startsWithL : List Char → List Char → Bool
  | [], _ => true
  | _ :: _, [] => false
  | a :: xs, b :: ys => a == b && startsWithL xs ys

/-- Everything after the first colon, as in `data.split(":", 1)[1]`. -/
def afterColon (l : List Char) : List Char :=
  (l.dropWhile (· ≠ ':')).tail

/-- Everything before the first colon, as in `data.split(":", 1)[0]`. -/
def beforeColon (l : List Char) : List Char :=
  l.takeWhile (· ≠ ':')

-- Sanity checks of the basic utilities.
example : stripL (" ab ".data) = "ab".data := by decide
example : splitComma ("a,,b".data) = ["a".data, [], "b".data] := by decide
example : afterColon ("exp_type:fu:el".data) = "fu:el".data := by decide
example : qadd (qmk 1 2) (qmk 1 2) = qint 1 := by decide
example : qsub (qint 3) (qint 5) = qint (-2) := by decide
example : qsum [qmk 105 10, qint 2] = qmk 125 10 := by decide

/-- Model of Python `float()` on the numeric-literal part of its grammar:
optional surrounding whitespace, optional sign, integer digits and/or a
fractional part, optional decimal exponent.  The result is the exact
rational value of the literal.  `inf`/`nan` keywords, digit-group
underscores and non-ASCII digits are outside the model. -/
def pyFloat (l0 : List Char) : Option Q :=
  let l1 := stripL l0
  let sgn : Int := match l1 with | '-' :: _ => -1 | _ => 1
  let l2 := match l1 with | '+' :: t => t | '-' :: t => t | _ => l1
  let ip := l2.takeWhile pyIsDigit
  let r1 := l2.dropWhile pyIsDigit
  let fp := match r1 with | '.' :: t => t.takeWhile pyIsDigit | _ => []
  let r2 := match r1 with | '.' :: t => t.dropWhile pyIsDigit | _ => r1
  if ip = [] ∧ fp = [] then none
  else
    let mant : Int := sgn * Int.ofNat (digitsToNat ip * 10 ^ fp.length + digitsToNat fp)
    let bden : Nat := 10 ^ fp.length
    match r2 with
    | [] => some (qmk mant bden)
    | e :: t =>
      if e = 'e' ∨ e = 'E' then
        let epos : Bool := match t with | '-' :: _ => false | _ => true
        let t2 := match t with | '+' :: u => u | '-' :: u => u | _ => t
        let ed := t2.takeWhile pyIsDigit
        let rest := t2.dropWhile pyIsDigit
        if ed = [] ∨ rest ≠ [] then none
        else
          let ex := digitsToNat ed
          if epos then some (qmk (mant * Int.ofNat (10 ^ ex)) bden)
          else some (qmk mant (bden * 10 ^ ex))
      else none

/-- Model of `text.replace(",", ".")`. -/
def replaceCommaDot (s : String) : String :=
  String.mk (s.data.map (fun c => if c = ',' then '.' else c))

/-- Embedding of `is_valid_money` from `main.py`: replace the comma decimal
separator with a period, try `float()`, and require a strictly positive
value; any parse failure yields `False`. -/
def is_valid_money (s : String) : Bool :=
  match pyFloat (replaceCommaDot s).data with
  | some v => qpos v
  | none => false

/-- Embedding of `parse_money` from `main.py` (only called on validated
input; the fallback value stands in for the exception path). -/
def parse_money (s : String) : Q :=
  (pyFloat (replaceCommaDot s).data).getD (qint 0)

/-- Embedding of `normalize_plate` from `main.py`:
`text.strip().upper().replace(" ", "")`. -/
def normalize_plate (s : String) : String :=
  String.mk (((stripL s.data).map upperChar).filter (fun c => decide (c.toNat ≠ 32)))

/-- Letter class of the plate pattern `[A-ZА-Я]` under `re.I`: ASCII
letters or the Cyrillic range of the source pattern, either case. -/
def plateLetter (c : Char) : Bool :=
  (65 ≤ c.toNat && c.toNat ≤ 90) || (97 ≤ c.toNat && c.toNat ≤ 122) ||
    (1040 ≤ c.toNat && c.toNat ≤ 1071) || (1072 ≤ c.toNat && c.toNat ≤ 1103)

/-- Embedding of `PLATE_RE.match`: the anchored pattern
two letters, four digits, two letters (case-insensitive). -/
def plate_matches (s : String) : Bool :=
  match s.data with
  | [a, b, c, d, e, f, g, h] =>
    plateLetter a && plateLetter b && pyIsDigit c && pyIsDigit d &&
      pyIsDigit e && pyIsDigit f && plateLetter g && plateLetter h
  | _ => false

/-- Gregorian leap-year test. -/
def isLeap (y : Nat) : Bool :=
  (y % 4 = 0 && decide (y % 100 ≠ 0)) || y % 400 = 0

/-- Number of days of a month. -/
def daysInMonth (y m : Nat) : Nat :=
  if m = 2 then (if isLeap y then 29 else 28)
  else if m = 4 ∨ m = 6 ∨ m = 9 ∨ m = 11 then 30
  else 31

/-- Days of the year before the given month starts. -/
def daysBeforeMonth (y m : Nat) : Nat :=
  [0, 31, 59, 90, 120, 151, 181, 212, 243, 273, 304, 334].getD (m - 1) 0 +
    (if decide (3 ≤ m) && isLeap y then 1 else 0)

/-- Model of `datetime.fromisoformat` on `YYYY-MM-DD` calendar dates:
exactly ten characters, dashes in place, digits elsewhere, and a valid
Gregorian calendar date (the optional time-of-day suffix Python also
accepts is outside the model). -/
def parseDate (l : List Char) : Option (Nat × Nat × Nat) :=
  match l with
  | [y1, y2, y3, y4, s1, m1, m2, s2, d1, d2] =>
    if s1 = '-' ∧ s2 = '-' ∧ pyIsDigit y1 ∧ pyIsDigit y2 ∧ pyIsDigit y3 ∧
        pyIsDigit y4 ∧ pyIsDigit m1 ∧ pyIsDigit m2 ∧ pyIsDigit d1 ∧ pyIsDigit d2 then
      let y := digitsToNat [y1, y2, y3, y4]
      let m := digitsToNat [m1, m2]
      let d := digitsToNat [d1, d2]
      if 1 ≤ y ∧ 1 ≤ m ∧ m ≤ 12 ∧ 1 ≤ d ∧ d ≤ daysInMonth y m then
        some (y, m, d)
      else none
    else none
  | _ => none

/-- UTC seconds at midnight of a calendar date (proleptic Gregorian, day
0 being 0001-01-01); one day of `timedelta(days=1)` is 86400 seconds. -/
def dateSeconds (d : Nat × Nat × Nat) : Nat :=
  86400 * (365 * (d.1 - 1) + (d.1 - 1) / 4 + (d.1 - 1) / 400 - (d.1 - 1) / 100 +
    daysBeforeMonth d.1 d.2.1 + (d.2.2 - 1))

-- Sanity checks against the Python behaviour.
example : is_valid_money ("100,50") = true := by decide
example : parse_money ("100,50") = qmk 201 2 := by decide
example : is_valid_money ("-3") = false := by decide
example : is_valid_money ("0") = false := by decide
example : is_valid_money ("abc") = false := by decide
example : is_valid_money (".5e1") = true := by decide
example : parse_money (".5e1") = qint 5 := by decide
example : is_valid_money ("1.2.3") = false := by decide
example : normalize_plate ("bc 1234 ab") = "BC1234AB" := by decide
example : plate_matches ("BC1234AB") = true := by decide
example : plate_matches ("BC12AB") = false := by decide
example : parseDate ("2025-02-30").data = none := by decide
example : parseDate ("2024-02-29").data = some (2024, 2, 29) := by decide
example : parseDate ("2025-1-31").data = none := by decide
example : dateSeconds (2025, 2, 1) = dateSeconds (2025, 1, 31) + 86400 := by decide
example : dateSeconds (2024, 3, 1) = dateSeconds (2024, 2, 29) + 86400 := by decide

/-- Row of the `users` table.  `lang` defaults to `uk` and `report_period`
to `weekly` per the schema in `init_db`. -/
structure UserRow where
  user_id : Nat
  tg_first_name : Option String
  name : Option String
  nickname : Option String
  car_model : Option String
  car_number : Option String
  lang : String
  report_period : String
  registered_at : Option Nat
  deriving DecidableEq

/-- Row of the `incomes` table (the auto id is the position in the list,
the unused `note` column is omitted). -/
structure IncomeRow where
  user_id : Nat
  amount : Q
  ts : Nat
  deriving DecidableEq

/-- Row of the `expenses` table. -/
structure ExpenseRow where
  user_id : Nat
  amount : Q
  type : String
  ts : Nat
  deriving DecidableEq

/-- The relational store: three tables in insertion (rowid) order. -/
structure Store where
  users : List UserRow := []
  incomes : List IncomeRow := []
  expenses : List ExpenseRow := []
  deriving DecidableEq

/-- Embedding of `user_exists`: `SELECT 1 FROM users WHERE user_id = ?`. -/
def user_exists (store : Store) (uid : Nat) : Bool :=
  store.users.any (fun u => u.user_id == uid)

/-- Embedding of `save_user`: `INSERT OR REPLACE INTO users (user_id,
tg_first_name, name, nickname, car_model, car_number, registered_at)`.
Per SQLite semantics the replacement deletes every row conflicting on the
`user_id` primary key or on the `nickname UNIQUE` constraint (`NULL`
nicknames never conflict) and inserts a fresh row, so the omitted `lang`
and `report_period` columns take their schema defaults. -/
def save_user (store : Store) (uid : Nat) (fname : Option String)
    (name nickname car_model car_number : Option String) (now : Nat) : Store :=
  { store with
    users :=
      store.users.filter
        (fun u =>
          !(u.user_id == uid || (nickname.isSome && u.nickname == nickname))) ++
      [⟨uid, fname, name, nickname, car_model, car_number, "uk", "weekly", some now⟩] }

/-- Embedding of `nickname_exists`:
`SELECT 1 FROM users WHERE LOWER(nickname)=LOWER(?)`; a stored `NULL`
nickname never compares equal. -/
def nickname_exists (store : Store) (nick : String) : Bool :=
  store.users.any
    (fun u =>
      match u.nickname with
      | some nn => lowerAscii nn == lowerAscii nick
      | none => false)

/-- Embedding of `get_balance`: the two `COALESCE(SUM(amount),0)` queries,
filtered by `ts >= since` when a window start is given, and the net as
income total minus expense total. -/
def get_balance (store : Store) (uid : Nat) (since : Option Nat) : Q × Q × Q :=
  match since with
  | some t =>
    let tin := qsum (((store.incomes.filter
      (fun r => r.user_id == uid && t ≤ r.ts))).map (·.amount))
    let tex := qsum (((store.expenses.filter
      (fun r => r.user_id == uid && t ≤ r.ts))).map (·.amount))
    (tin, tex, qsub tin tex)
  | none =>
    let tin := qsum (((store.incomes.filter (fun r => r.user_id == uid))).map (·.amount))
    let tex := qsum (((store.expenses.filter (fun r => r.user_id == uid))).map (·.amount))
    (tin, tex, qsub tin tex)

/-- Stable insertion step for a descending sort by key. -/
def insertDescBy (key : α → Q) (x : α) : List α → List α
  | [] => [x]
  | h :: t => if qleB (key x) (key h) then h :: insertDescBy key x t else x :: h :: t

/-- Stable descending sort by key (`ORDER BY ... DESC`; ties keep the
underlying table order). -/
def sortDescBy (key : α → Q) (l : List α) : List α :=
  l.foldl (fun acc x => insertDescBy key x acc) []

/-- Stable insertion step for an ascending sort by timestamp. -/
def insertAscTs (ts : α → Nat) (x : α) : List α → List α
  | [] => [x]
  | h :: t => if ts h ≤ ts x then h :: insertAscTs ts x t else x :: h :: t

/-- Stable ascending sort by timestamp (`ORDER BY ts`). -/
def sortAscTs (ts : α → Nat) (l : List α) : List α :=
  l.foldl (fun acc x => insertAscTs ts x acc) []

/-- The per-user aggregate computed by the `get_top_drivers` query: the
row set of `users LEFT JOIN incomes LEFT JOIN expenses` grouped by user,
summing the income column and the expense column over the joined rows
(`NULL` contributing 0 through `COALESCE`). -/
def topJoinBalance (store : Store) (uid : Nat) : Q :=
  let I : List (Option Q) :=
    match (store.incomes.filter (fun r => r.user_id == uid)).map (·.amount) with
    | [] => [none]
    | l => l.map some
  let E : List (Option Q) :=
    match (store.expenses.filter (fun r => r.user_id == uid)).map (·.amount) with
    | [] => [none]
    | l => l.map some
  let rows := I.flatMap (fun i => E.map (fun e => (i, e)))
  qsub (qsum (rows.map (fun p => p.1.getD (qint 0))))
    (qsum (rows.map (fun p => p.2.getD (qint 0))))

/-- Embedding of `get_top_drivers`: one `(nickname, name, balance)` row per
user, ordered by the join-computed balance descending, limited. -/
def get_top_drivers (store : Store) (limit : Nat) :
    List (Option String × Option String × Q) :=
  ((sortDescBy (fun u => topJoinBalance store u.user_id) store.users).map
    (fun u => (u.nickname, u.name, topJoinBalance store u.user_id))).take limit

-- Sanity checks of the store operations.
example : get_balance ⟨[], [⟨1, qint 10, 0⟩, ⟨1, qint 20, 5⟩], [⟨1, qint 5, "fuel", 3⟩]⟩ 1 none =
    (qint 30, qint 5, qint 25) := by decide
example : get_balance ⟨[], [⟨1, qint 10, 0⟩, ⟨1, qint 20, 5⟩], [⟨1, qint 5, "fuel", 3⟩]⟩ 1 (some 2) =
    (qint 20, qint 5, qint 15) := by decide
example : nickname_exists ⟨[⟨1, none, none, some "Driver1", none, none, "uk", "weekly", none⟩], [], []⟩
    ("DRIVER1") = true := by decide

/-- Conversation states of the three `StatesGroup` classes.  `reportOdd`
stands for the unusable value `report_period_start` stores via
`state.set_state(State().set_state)`: no registered `StateFilter` ever
matches it. -/
inductive FsmState where
  | regName
  | regNickname
  | regCarModel
  | regCarNumber
  | incAmount
  | expAmount
  | expType
  | reportOdd
  deriving DecidableEq

/-- The per-conversation accumulator (the FSM data dictionary): the keys
written by `state.update_data` across the flows. -/
structure StateData where
  name : Option String := none
  nickname : Option String := none
  car_model : Option String := none
  car_number : Option String := none
  exp_amount : Option Q := none
  deriving DecidableEq

/-- One user's conversation: current state and accumulator.  `st = none`
is idle; `state.clear()` resets both fields. -/
structure Conv where
  st : Option FsmState := none
  data : StateData := {}
  deriving DecidableEq

/-- The cleared conversation (`state.clear()`). -/
def convClear : Conv := {}

/-- Observable outbound messages, abstracted to their meaning; payload
fields carry the data interpolated into the reply text. -/
inductive Reply where
  | welcomeBack
  | askName
  | askNickname
  | nicknameTaken
  | askCarModel
  | askCarNumber
  | invalidPlate
  | registrationDone
  | notRegistered
  | askIncomeAmount
  | askExpenseAmount
  | invalidAmount
  | incomeAdded (amount : Q)
  | askExpenseType
  | expenseAdded (amount : Q) (category : String)
  | amountMissing
  | statsText (total day week month : Q × Q × Q)
  | askPeriodDates
  | invalidPeriodFormat
  | invalidPeriodDates
  | periodReport (incomes : List IncomeRow) (expenses : List ExpenseRow) (net : Q)
  | carInfo (name nickname car_model car_number : Option String)
  | notRegisteredCar
  | askNewName
  | askNewCarModel
  | closeDialog
  | unknownAction
  | settingsMenu
  | langSaved
  | periodSaved
  | topEmpty
  | topList (rows : List (Option String × Option String × Q))
  deriving DecidableEq

/-- Common result type of a handler execution. -/
abbrev HandlerResult := Store × Conv × List Reply

/-- Embedding of `cmd_start`. -/
def cmd_start (uid : Nat) (store : Store) : HandlerResult :=
  if user_exists store uid then (store, convClear, [Reply.welcomeBack])
  else (store, { st := some FsmState.regName, data := {} }, [Reply.askName])

/-- Embedding of `process_name`. -/
def process_name (text : String) (store : Store) (conv : Conv) : HandlerResult :=
  (store,
    { st := some FsmState.regNickname,
      data := { conv.data with name := some (pyStrip text) } },
    [Reply.askNickname])

/-- Embedding of `process_nickname`: reject a nickname some stored user
already holds up to `LOWER`, otherwise record it and advance. -/
def process_nickname (text : String) (store : Store) (conv : Conv) : HandlerResult :=
  let nick := pyStrip text
  if nickname_exists store nick then (store, conv, [Reply.nicknameTaken])
  else
    (store,
      { st := some FsmState.regCarModel,
        data := { conv.data with nickname := some nick } },
      [Reply.askCarModel])

/-- Embedding of `process_car_model`. -/
def process_car_model (text : String) (store : Store) (conv : Conv) : HandlerResult :=
  (store,
    { st := some FsmState.regCarNumber,
      data := { conv.data with car_model := some (pyStrip text) } },
    [Reply.askCarNumber])

/-- Embedding of `process_car_number`: validate the normalized plate, then
flush the accumulator through `save_user` and clear the state. -/
def process_car_number (now uid : Nat) (fname : Option String) (text : String)
    (store : Store) (conv : Conv) : HandlerResult :=
  let plate := normalize_plate text
  if !plate_matches plate then (store, conv, [Reply.invalidPlate])
  else
    let d := conv.data
    (save_user store uid fname d.name d.nickname d.car_model (some plate) now,
      convClear, [Reply.registrationDone])

/-- Embedding of `add_income_start`. -/
def add_income_start (uid : Nat) (store : Store) (conv : Conv) : HandlerResult :=
  if !user_exists store uid then (store, conv, [Reply.notRegistered])
  else (store, { conv with st := some FsmState.incAmount }, [Reply.askIncomeAmount])

/-- Embedding of `add_income_amount`: validate, insert the income row,
clear the state; invalid input loops in the same state. -/
def add_income_amount (now uid : Nat) (text : String) (store : Store)
    (conv : Conv) : HandlerResult :=
  if !is_valid_money text then (store, conv, [Reply.invalidAmount])
  else
    let amount := parse_money text
    ({ store with incomes := store.incomes ++ [⟨uid, amount, now⟩] },
      convClear, [Reply.incomeAdded amount])

/-- Embedding of `add_expense_start`. -/
def add_expense_start (uid : Nat) (store : Store) (conv : Conv) : HandlerResult :=
  if !user_exists store uid then (store, conv, [Reply.notRegistered])
  else (store, { conv with st := some FsmState.expAmount }, [Reply.askExpenseAmount])

/-- Embedding of `add_expense_amount`: validate, stash the amount in the
accumulator, advance to the category selection. -/
def add_expense_amount (text : String) (store : Store) (conv : Conv) : HandlerResult :=
  if !is_valid_money text then (store, conv, [Reply.invalidAmount])
  else
    (store,
      { st := some FsmState.expType,
        data := { conv.data with exp_amount := some (parse_money text) } },
      [Reply.askExpenseType])

/-- Embedding of `exp_type_callback`: whatever follows `exp_type:` in the
callback payload is stored verbatim as the expense category; the handler
performs no membership test against the four keyboard categories. -/
def exp_type_callback (now uid : Nat) (data : String) (store : Store)
    (conv : Conv) : HandlerResult :=
  match conv.data.exp_amount with
  | none => (store, convClear, [Reply.amountMissing])
  | some amount =>
    let type_cb := String.mk (afterColon data.data)
    ({ store with expenses := store.expenses ++ [⟨uid, amount, type_cb, now⟩] },
      convClear, [Reply.expenseAdded amount type_cb])

/-- Embedding of `my_stats_handler` (read-only). -/
def my_stats_handler (now uid : Nat) (store : Store) (conv : Conv) : HandlerResult :=
  if !user_exists store uid then (store, conv, [Reply.notRegistered])
  else
    (store, conv,
      [Reply.statsText (get_balance store uid none)
        (get_balance store uid (some (now - 86400)))
        (get_balance store uid (some (now - 7 * 86400)))
        (get_balance store uid (some (now - 30 * 86400)))])

/-- Embedding of `report_period_start` (stores the unusable state value). -/
def report_period_start (store : Store) (conv : Conv) : HandlerResult :=
  (store, { conv with st := some FsmState.reportOdd }, [Reply.askPeriodDates])

/-- The comma-separated, individually stripped, non-empty segments of the
report input: `[p.strip() for p in txt.split(",") if p.strip()]`. -/
def reportParts (l : List Char) : List (List Char) :=
  ((splitComma l).map stripL).filter (fun p => !p.isEmpty)

/-- Embedding of `report_period_handler`: two parts, both parsed as ISO
dates, the end date advanced one day and treated exclusively; range query
over both tables ordered by timestamp; net balance of the range.  The
handler never writes to the store and never touches the FSM state. -/
def report_period_handler (uid : Nat) (text : String) (store : Store)
    (conv : Conv) : HandlerResult :=
  let txt := stripL text.data
  match reportParts txt with
  | [p1, p2] =>
    match parseDate p1, parseDate p2 with
    | some d1, some d2 =>
      let s := dateSeconds d1
      let e := dateSeconds d2 + 86400
      let ins := sortAscTs (fun r => r.ts)
        (store.incomes.filter (fun r => r.user_id == uid && s ≤ r.ts && r.ts < e))
      let exs := sortAscTs (fun r => r.ts)
        (store.expenses.filter (fun r => r.user_id == uid && s ≤ r.ts && r.ts < e))
      (store, conv,
        [Reply.periodReport ins exs
          (qsub (qsum (ins.map (·.amount))) (qsum (exs.map (·.amount))))])
    | _, _ => (store, conv, [Reply.invalidPeriodDates])
  | _ => (store, conv, [Reply.invalidPeriodFormat])

/-- Embedding of `my_car_handler` (read-only). -/
def my_car_handler (uid : Nat) (store : Store) (conv : Conv) : HandlerResult :=
  match store.users.find? (fun u => u.user_id == uid) with
  | none => (store, conv, [Reply.notRegisteredCar])
  | some u => (store, conv, [Reply.carInfo u.name u.nickname u.car_model u.car_number])

/-- Embedding of `edit_callback`: `edit:name` re-enters the registration
state chain at the name step, `edit:car` at the car-model step; anything
else after `edit:` yields the unknown-action notice without touching the
state. -/
def edit_callback (data : String) (store : Store) (conv : Conv) : HandlerResult :=
  let action := afterColon data.data
  if action = "name".data then
    (store, { conv with st := some FsmState.regName }, [Reply.askNewName])
  else if action = "car".data then
    (store, { conv with st := some FsmState.regCarModel }, [Reply.askNewCarModel])
  else if action = "close".data then (store, conv, [Reply.closeDialog])
  else (store, conv, [Reply.unknownAction])

/-- Embedding of `settings_handler`. -/
def settings_handler (store : Store) (conv : Conv) : HandlerResult :=
  (store, conv, [Reply.settingsMenu])

/-- Embedding of `settings_callback`: updates the `lang` or
`report_period` column of the caller's row. -/
def settings_callback (uid : Nat) (data : String) (store : Store)
    (conv : Conv) : HandlerResult :=
  let action := beforeColon data.data
  let v := String.mk (afterColon data.data)
  if action = "setlang".data then
    let users := store.users.map
      (fun u => if u.user_id == uid then { u with lang := v } else u)
    ({ store with users := users }, conv, [Reply.langSaved])
  else if action = "setperiod".data then
    let users := store.users.map
      (fun u => if u.user_id == uid then { u with report_period := v } else u)
    ({ store with users := users }, conv, [Reply.periodSaved])
  else (store, conv, [])

/-- Embedding of `top_drivers_handler`. -/
def top_drivers_handler (store : Store) (conv : Conv) : HandlerResult :=
  match get_top_drivers store 10 with
  | [] => (store, conv, [Reply.topEmpty])
  | rows => (store, conv, [Reply.topList rows])

/-- Identifiers of the registered message handlers, in registration
order. -/
inductive MsgHandler where
  | cmdStart
  | processName
  | processNickname
  | processCarModel
  | processCarNumber
  | addIncomeStart
  | addIncomeAmount
  | addExpenseStart
  | addExpenseAmount
  | myStats
  | reportPeriodHandler
  | reportPeriodStart
  | topDrivers
  | myCar
  | settings
  deriving DecidableEq

/-- Identifiers of the registered callback handlers, in registration
order. -/
inductive CbHandler where
  | expTypeCallback
  | editCallback
  | settingsCallback
  deriving DecidableEq

/-- The `Command(commands=["start"])` filter: the first whitespace-bounded
token, shorn of a bot mention, equals `/start`. -/
def isStartCommand (l : List Char) : Bool :=
  decide (((l.takeWhile (· ≠ ' ')).takeWhile (· ≠ '@')) = "/start".data)

/-- The `"," in m.text and m.text[0].isdigit()` filter guarding
`report_period_handler` (short-circuit: a comma implies non-emptiness). -/
def dateShape (l : List Char) : Bool :=
  l.contains ',' &&
    (match l with
     | [] => false
     | c :: _ => pyIsDigit c)

/-- Embedding of the aiogram message dispatch: handlers are tried in the
registration order of `main.py` and the first one whose filters pass
receives the message.  A `StateFilter(S)` passes when the sender's current
state is `S`; handlers registered without a state filter are reachable
from any state. -/
def selectHandler (st : Option FsmState) (l : List Char) : Option MsgHandler :=
  if isStartCommand l then some MsgHandler.cmdStart
  else if st = some FsmState.regName then some MsgHandler.processName
  else if st = some FsmState.regNickname then some MsgHandler.processNickname
  else if st = some FsmState.regCarModel then some MsgHandler.processCarModel
  else if st = some FsmState.regCarNumber then some MsgHandler.processCarNumber
  else if l = "📥 Додати заробіток".data then some MsgHandler.addIncomeStart
  else if st = some FsmState.incAmount then some MsgHandler.addIncomeAmount
  else if l = "💸 Додати витрати".data then some MsgHandler.addExpenseStart
  else if st = some FsmState.expAmount then some MsgHandler.addExpenseAmount
  else if l = "📊 Моя статистика".data then some MsgHandler.myStats
  else if dateShape l then some MsgHandler.reportPeriodHandler
  else if l = "📅 Звіт за період".data then some MsgHandler.reportPeriodStart
  else if l = "🏆 Топ водіїв".data then some MsgHandler.topDrivers
  else if l = "🚘 Мій автомобіль".data then some MsgHandler.myCar
  else if l = "⚙️ Налаштування".data then some MsgHandler.settings
  else none

/-- Embedding of the aiogram callback dispatch (`startswith` filters in
registration order). -/
def selectCallback (l : List Char) : Option CbHandler :=
  if startsWithL ("exp_type:".data) l then some CbHandler.expTypeCallback
  else if startsWithL ("edit:".data) l then some CbHandler.editCallback
  else if startsWithL ("set".data) l then some CbHandler.settingsCallback
  else none

/-- Whole-system state: the relational store plus the `MemoryStorage`
conversation map keyed by user id. -/
structure Sys where
  store : Store
  convs : Nat → Conv

/-- The initial system: empty store, every conversation idle. -/
def sys0 : Sys := ⟨{}, fun _ => {}⟩

/-- Route one incoming text message (sender id, sender first name, text)
through the dispatcher and run the selected handler. -/
def handleMessage (now uid : Nat) (fname text : String) (sys : Sys) :
    Sys × List Reply :=
  let conv := sys.convs uid
  let apply : HandlerResult → Sys × List Reply := fun r =>
    (⟨r.1, fun u => if u == uid then r.2.1 else sys.convs u⟩, r.2.2)
  match selectHandler conv.st text.data with
  | some MsgHandler.cmdStart => apply (cmd_start uid sys.store)
  | some MsgHandler.processName => apply (process_name text sys.store conv)
  | some MsgHandler.processNickname => apply (process_nickname text sys.store conv)
  | some MsgHandler.processCarModel => apply (process_car_model text sys.store conv)
  | some MsgHandler.processCarNumber =>
    apply (process_car_number now uid (some fname) text sys.store conv)
  | some MsgHandler.addIncomeStart => apply (add_income_start uid sys.store conv)
  | some MsgHandler.addIncomeAmount => apply (add_income_amount now uid text sys.store conv)
  | some MsgHandler.addExpenseStart => apply (add_expense_start uid sys.store conv)
  | some MsgHandler.addExpenseAmount => apply (add_expense_amount text sys.store conv)
  | some MsgHandler.myStats => apply (my_stats_handler now uid sys.store conv)
  | some MsgHandler.reportPeriodHandler =>
    apply (report_period_handler uid text sys.store conv)
  | some MsgHandler.reportPeriodStart => apply (report_period_start sys.store conv)
  | some MsgHandler.topDrivers => apply (top_drivers_handler sys.store conv)
  | some MsgHandler.myCar => apply (my_car_handler uid sys.store conv)
  | some MsgHandler.settings => apply (settings_handler sys.store conv)
  | none => (sys, [])

/-- Route one callback selection through the callback dispatcher. -/
def handleCallback (now uid : Nat) (data : String) (sys : Sys) :
    Sys × List Reply :=
  let conv := sys.convs uid
  let apply : HandlerResult → Sys × List Reply := fun r =>
    (⟨r.1, fun u => if u == uid then r.2.1 else sys.convs u⟩, r.2.2)
  match selectCallback data.data with
  | some CbHandler.expTypeCallback => apply (exp_type_callback now uid data sys.store conv)
  | some CbHandler.editCallback => apply (edit_callback data sys.store conv)
  | some CbHandler.settingsCallback => apply (settings_callback uid data sys.store conv)
  | none => (sys, [])

/-- Run a trace of messages (sender id, sender first name, text) from the
given system state, all at model time 0. -/
def runMsgs (msgs : List (Nat × String × String)) (sys : Sys) : Sys :=
  msgs.foldl (fun s m => (handleMessage 0 m.1 m.2.1 m.2.2 s).1) sys

/-- Fixed enumeration of expense categories offered by the inline keyboard
of `add_expense_amount` (`exp_type:fuel` … `exp_type:other`). -/
def expense_categories : List String := ["fuel", "wash", "repair", "other"]

-- Sanity checks of the dispatcher.
example : selectHandler none ("/start".data) = some MsgHandler.cmdStart := by decide
example : selectHandler (some FsmState.regName) ("/start@bot hi".data) =
    some MsgHandler.cmdStart := by decide
example : selectHandler none ("2025-01-01,2025-01-31".data) =
    some MsgHandler.reportPeriodHandler := by decide
example : selectHandler (some FsmState.regName) ("2025-01-01,2025-01-31".data) =
    some MsgHandler.processName := by decide
example : selectHandler (some FsmState.expType) ("2025-01-01,2025-01-31".data) =
    some MsgHandler.reportPeriodHandler := by decide
example : selectHandler (some FsmState.incAmount) ("📊 Моя статистика".data) =
    some MsgHandler.addIncomeAmount := by decide
example : selectCallback ("exp_type:junk".data) = some CbHandler.expTypeCallback := by decide
example : selectCallback ("setlang:uk".data) = some CbHandler.settingsCallback := by decide

/-- Specification-side total income of a user over all time (no window). -/
def totalIncomeOf (store : Store) (uid : Nat) : Q :=
  qsum ((store.incomes.filter (fun r => r.user_id == uid)).map (·.amount))

/-- Specification-side total expense of a user over all time. -/
def totalExpenseOf (store : Store) (uid : Nat) : Q :=
  qsum ((store.expenses.filter (fun r => r.user_id == uid)).map (·.amount))

/-- The stored user row with the given id (`SELECT ... WHERE user_id=?`). -/
def userById (store : Store) (uid : Nat) : Option UserRow :=
  store.users.find? (fun u => u.user_id == uid)

/-- Store used to exhibit the join fan-out of `get_top_drivers`: one user
with two incomes (10 and 20) and one expense (5). -/
def fanStore : Store :=
  ⟨[⟨1, some "Ivan", some "Ivan", some "driver", some "Renault Logan",
      some "BC1234AB", "uk", "weekly", some 0⟩],
    [⟨1, qint 10, 1⟩, ⟨1, qint 20, 2⟩],
    [⟨1, qint 5, "fuel", 3⟩]⟩

/-- Message trace of two interleaved registrations choosing the nicknames
`nick` and `NICK`: the uniqueness check of the nickname step runs against
the stored users only, so both pass while neither row is stored yet. -/
def traceMsgs : List (Nat × String × String) :=
  [(1, "A", "/start"), (1, "A", "Ivan"), (1, "A", "nick"),
   (2, "B", "/start"), (2, "B", "Ole"), (2, "B", "NICK"),
   (1, "A", "Renault Logan"), (1, "A", "BC1234AB"),
   (2, "B", "Toyota Corolla"), (2, "B", "AA5678BB")]

theorem toNatOfNatValid {n : Nat} (h : n.isValidChar) : (Char.ofNat n).toNat = n := by
  simp [Char.ofNat, h, Char.ofNatAux, Char.toNat]
  rfl

theorem upperChar_toNat (c : Char) :
    (upperChar c).toNat =
      if 97 ≤ c.toNat ∧ c.toNat ≤ 122 then c.toNat - 32
      else if 1072 ≤ c.toNat ∧ c.toNat ≤ 1103 then c.toNat - 32
      else if c.toNat = 1105 then 1025
      else c.toNat := by
  unfold upperChar
  split_ifs with h1 h2 h3
  · exact toNatOfNatValid (Or.inl (by omega))
  · exact toNatOfNatValid (Or.inl (by omega))
  · exact toNatOfNatValid (Or.inl (by omega))
  · rfl

theorem upperChar_eq_self_of (c : Char) (h1 : ¬(97 ≤ c.toNat ∧ c.toNat ≤ 122))
    (h2 : ¬(1072 ≤ c.toNat ∧ c.toNat ≤ 1103)) (h3 : ¬(c.toNat = 1105)) :
    upperChar c = c := by
  unfold upperChar
  rw [if_neg h1, if_neg h2, if_neg h3]

theorem upperChar_idem (c : Char) : upperChar (upperChar c) = upperChar c := by
  have ht := upperChar_toNat c
  by_cases h1 : 97 ≤ c.toNat ∧ c.toNat ≤ 122
  · rw [if_pos h1] at ht
    exact upperChar_eq_self_of _ (by omega) (by omega) (by omega)
  · by_cases h2 : 1072 ≤ c.toNat ∧ c.toNat ≤ 1103
    · rw [if_neg h1, if_pos h2] at ht
      exact upperChar_eq_self_of _ (by omega) (by omega) (by omega)
    · by_cases h3 : c.toNat = 1105
      · rw [if_neg h1, if_neg h2, if_pos h3] at ht
        exact upperChar_eq_self_of _ (by omega) (by omega) (by omega)
      · have he := upperChar_eq_self_of c h1 h2 h3
        rw [he]
        exact he

theorem pySpace_upperChar (c : Char) : pySpace (upperChar c) = pySpace c := by
  have ht := upperChar_toNat c
  split_ifs at ht with h1 h2 h3
  · have l1 : pySpace (upperChar c) = false := by
      unfold pySpace
      simp only [Bool.or_eq_false_iff, decide_eq_false_iff_not]
      omega
    have l2 : pySpace c = false := by
      unfold pySpace
      simp only [Bool.or_eq_false_iff, decide_eq_false_iff_not]
      omega
    rw [l1, l2]
  · have l1 : pySpace (upperChar c) = false := by
      unfold pySpace
      simp only [Bool.or_eq_false_iff, decide_eq_false_iff_not]
      omega
    have l2 : pySpace c = false := by
      unfold pySpace
      simp only [Bool.or_eq_false_iff, decide_eq_false_iff_not]
      omega
    rw [l1, l2]
  · have l1 : pySpace (upperChar c) = false := by
      unfold pySpace
      simp only [Bool.or_eq_false_iff, decide_eq_false_iff_not]
      omega
    have l2 : pySpace c = false := by
      unfold pySpace
      simp only [Bool.or_eq_false_iff, decide_eq_false_iff_not]
      omega
    rw [l1, l2]
  · unfold pySpace
    rw [ht]

/-- C7: for every user and time window, `get_balance` returns a triple
whose net is exactly total income minus total expense, and the windowless
call returns exactly the all-time sums over that user's entries. -/
theorem c7_balance_identity (store : Store) (uid : Nat) (since : Option Nat) :
    (get_balance store uid since).2.2 =
      qsub (get_balance store uid since).1 (get_balance store uid since).2.1 ∧
    get_balance store uid none =
      (totalIncomeOf store uid, totalExpenseOf store uid,
        qsub (totalIncomeOf store uid) (totalExpenseOf store uid)) := by
  constructor
  · cases since <;> rfl
  · rfl

/-- C1: the `get_top_drivers` query does not return each user's income
total minus expense total.  With two incomes (10, 20) and one expense (5)
the double `LEFT JOIN` makes the expense row appear once per income row,
so the reported balance is 30 − 2·5 = 20 while `get_balance` computes
30 − 5 = 25. -/
theorem c1_top_drivers_join_fanout :
    get_top_drivers fanStore 10 = [(some "driver", some "Ivan", qint 20)] ∧
    get_balance fanStore 1 none = (qint 30, qint 5, qint 25) ∧
    (get_top_drivers fanStore 10).map (fun r => r.2.2) ≠
      [(get_balance fanStore 1 none).2.2] := by
  refine ⟨by decide, by decide, by decide⟩

/-- C9: `save_user` is a whole-row upsert, not a partial merge: after
saving, the stored row with that id consists exactly of the newly written
fields, with the unsupplied `lang` and `report_period` columns reset to
their schema defaults `uk` and `weekly` whatever the prior row held. -/
theorem c9_save_user_overwrites (store : Store) (uid : Nat)
    (fname name nickname car_model car_number : Option String) (now : Nat)
    (old : UserRow) (_hold : userById store uid = some old) :
    (save_user store uid fname name nickname car_model car_number now).users.filter
        (fun u => u.user_id == uid) =
      [⟨uid, fname, name, nickname, car_model, car_number, "uk", "weekly", some now⟩] ∧
    userById (save_user store uid fname name nickname car_model car_number now) uid =
      some ⟨uid, fname, name, nickname, car_model, car_number, "uk", "weekly", some now⟩ := by
  have hnil : ∀ u ∈ store.users.filter
      (fun u => !(u.user_id == uid || (nickname.isSome && u.nickname == nickname))),
      ¬((fun u => u.user_id == uid) u = true) := by
    intro u hu
    have h2 := (List.mem_filter.mp hu).2
    simp only [Bool.not_eq_eq_eq_not, Bool.not_true, Bool.or_eq_false_iff] at h2
    simp [h2.1]
  constructor
  · unfold save_user
    rw [List.filter_append]
    rw [List.filter_eq_nil_iff.mpr hnil]
    simp
  · unfold userById save_user
    rw [List.find?_append]
    rw [List.find?_eq_none.mpr hnil]
    simp

theorem afterColonAppend (v : List Char) : afterColon ("exp_type:".data ++ v) = v := by
  simp [afterColon, List.dropWhile]

theorem startsWithLAppend (l v : List Char) : startsWithL l (l ++ v) = true := by
  induction l with
  | nil => rfl
  | cons a t ih => simp [startsWithL, ih]

/-- C4: the amount validator accepts exactly the strings whose
comma-normalised form parses as a strictly positive decimal; on rejection
the income and expense amount steps leave the store and the conversation
untouched, and on acceptance the income step persists exactly the parsed
(strictly positive) amount. -/
theorem c4_amount_validator (s : String) (now uid : Nat) (store : Store) (conv : Conv) :
    (is_valid_money s = true ↔
      ∃ v, pyFloat (replaceCommaDot s).data = some v ∧ qpos v = true) ∧
    (is_valid_money s = false →
      add_income_amount now uid s store conv = (store, conv, [Reply.invalidAmount]) ∧
      add_expense_amount s store conv = (store, conv, [Reply.invalidAmount])) ∧
    (is_valid_money s = true →
      add_income_amount now uid s store conv =
        ({ store with incomes := store.incomes ++ [⟨uid, parse_money s, now⟩] },
          convClear, [Reply.incomeAdded (parse_money s)]) ∧
      qpos (parse_money s) = true) := by
  refine ⟨?_, ?_, ?_⟩
  · unfold is_valid_money
    cases hp : pyFloat (replaceCommaDot s).data with
    | none => simp
    | some v =>
      simp only []
      constructor
      · intro hv
        exact ⟨v, rfl, hv⟩
      · rintro ⟨w, hw, hwpos⟩
        cases hw
        exact hwpos
  · intro hv
    constructor
    · unfold add_income_amount
      rw [hv]
      rfl
    · unfold add_expense_amount
      rw [hv]
      rfl
  · intro hv
    constructor
    · unfold add_income_amount
      rw [hv]
      rfl
    · unfold is_valid_money at hv
      unfold parse_money
      cases hp : pyFloat (replaceCommaDot s).data with
      | none => rw [hp] at hv; exact absurd hv (by simp)
      | some v => rw [hp] at hv; exact hv

/-- C4 witness: concrete rejected and accepted inputs (`abc` and the
comma-decimal `100,50` of the spec scenario). -/
theorem c4_witness :
    is_valid_money ("abc") = false ∧
    add_income_amount 0 1 ("abc") ⟨[], [], []⟩ ⟨none, {}⟩ =
      (⟨[], [], []⟩, ⟨none, {}⟩, [Reply.invalidAmount]) ∧
    is_valid_money ("100,50") = true ∧
    qpos (parse_money ("100,50")) = true ∧
    parse_money ("100,50") = qmk 201 2 := by
  refine ⟨by decide, ?_, by decide, ?_, by decide⟩
  · exact ((c4_amount_validator ("abc") 0 1 ⟨[], [], []⟩ ⟨none, {}⟩).2.1 (by decide)).1
  · exact ((c4_amount_validator ("100,50") 0 1 ⟨[], [], []⟩ ⟨none, {}⟩).2.2 (by decide)).2

/-- C2 counterexample: with an amount of 50 in the accumulator, the
callback selection `exp_type:junk` — outside the fixed enumeration — does
not produce an unknown-action notice and does not leave state and store
unchanged: it persists an `ExpenseRow` with category `junk` and clears
the conversation. -/
theorem c2_counterexample :
    exp_type_callback 9 7 ("exp_type:junk") ⟨[], [], []⟩
        ⟨some FsmState.expType, { exp_amount := some (qint 50) }⟩ =
      (⟨[], [], [⟨7, qint 50, "junk", 9⟩]⟩, convClear,
        [Reply.expenseAdded (qint 50) ("junk")]) ∧
    ("junk" ∉ expense_categories) ∧
    Reply.expenseAdded (qint 50) ("junk") ≠ Reply.unknownAction := by
  refine ⟨by decide, by decide, by decide⟩

/-- C2 (amended): the category step of the expense flow performs no
membership test: every callback `exp_type:v` whose conversation holds an
accumulated amount persists an `ExpenseRow` carrying that amount and the
verbatim category `v` — inside or outside the keyboard enumeration — and
clears the conversation; the dispatcher routes every such payload to this
handler. -/
theorem c2_amended_category_step (now uid : Nat) (v : List Char) (store : Store)
    (conv : Conv) (a : Q) (ha : conv.data.exp_amount = some a) :
    exp_type_callback now uid (String.mk ("exp_type:".data ++ v)) store conv =
      ({ store with expenses := store.expenses ++ [⟨uid, a, String.mk v, now⟩] },
        convClear, [Reply.expenseAdded a (String.mk v)]) ∧
    selectCallback ("exp_type:".data ++ v) = some CbHandler.expTypeCallback := by
  constructor
  · unfold exp_type_callback
    rw [ha]
    have hc : afterColon (String.mk ("exp_type:".data ++ v)).data = v :=
      afterColonAppend v
    rw [hc]
  · unfold selectCallback
    rw [startsWithLAppend]
    rfl

/-- C2 witness: the amended behaviour at the concrete out-of-enumeration
category `junk` with amount 3. -/
theorem c2_witness :
    exp_type_callback 1 2 (String.mk ("exp_type:".data ++ "junk".data)) ⟨[], [], []⟩
        ⟨some FsmState.expType, { exp_amount := some (qint 3) }⟩ =
      (⟨[], [], [⟨2, qint 3, String.mk ("junk".data), 1⟩]⟩, convClear,
        [Reply.expenseAdded (qint 3) (String.mk ("junk".data))]) ∧
    selectCallback ("exp_type:".data ++ "junk".data) = some CbHandler.expTypeCallback := by
  exact c2_amended_category_step 1 2 ("junk".data) ⟨[], [], []⟩
    ⟨some FsmState.expType, { exp_amount := some (qint 3) }⟩ (qint 3) rfl


theorem nickname_exists_of_mem (store : Store) (u : UserRow) (n : String)
    (nick : String) (hu : u ∈ store.users) (hn : u.nickname = some n)
    (hc : lowerAscii n = lowerAscii nick) : nickname_exists store nick = true := by
  unfold nickname_exists
  rw [List.any_eq_true]
  refine ⟨u, hu, ?_⟩
  rw [hn]
  show (lowerAscii n == lowerAscii nick) = true
  rw [hc]
  simp

theorem takeWhileConsTrue {p : Char → Bool} {c : Char} (l : List Char)
    (h : p c = true) : (c :: l).takeWhile p = c :: l.takeWhile p := by
  simp [List.takeWhile_cons, h]

/-- C3 counterexample: mid-registration (name step) the message
`2025-01-01,2025-01-31` is dispatched to the state handler `process_name`
registered earlier, not to the period-report handler, so the date-shaped
override does not apply regardless of conversation state. -/
theorem c3_counterexample :
    selectHandler (some FsmState.regName) ("2025-01-01,2025-01-31".data) =
      some MsgHandler.processName ∧
    dateShape ("2025-01-01,2025-01-31".data) = true ∧
    some MsgHandler.processName ≠ some MsgHandler.reportPeriodHandler := by
  refine ⟨by decide, by decide, by decide⟩

theorem selectHandlerDateShape (st : Option FsmState) (l : List Char)
    (h : dateShape l = true)
    (h1 : st ≠ some FsmState.regName) (h2 : st ≠ some FsmState.regNickname)
    (h3 : st ≠ some FsmState.regCarModel) (h4 : st ≠ some FsmState.regCarNumber)
    (h5 : st ≠ some FsmState.incAmount) (h6 : st ≠ some FsmState.expAmount) :
    selectHandler st l = some MsgHandler.reportPeriodHandler := by
  have hpair := h
  unfold dateShape at hpair
  rw [Bool.and_eq_true] at hpair
  cases l with
  | nil => exact absurd hpair.2 (by decide)
  | cons c r =>
    have hd : pyIsDigit c = true := hpair.2
    have hne : ∀ (y : List Char) (x : Char) (lit : List Char),
        lit.head? = some x → pyIsDigit x = false → c :: y ≠ lit := by
      intro y x lit hl hx heq
      have hh : (c :: y).head? = lit.head? := congrArg List.head? heq
      rw [hl] at hh
      have hcc : c = x := Option.some.inj hh
      rw [hcc] at hd
      simp [hd] at hx
    have hsp : decide (c ≠ ' ') = true :=
      decide_eq_true (fun hcq => absurd (hcq ▸ hd) (by decide))
    have hat : decide (c ≠ '@') = true :=
      decide_eq_true (fun hcq => absurd (hcq ▸ hd) (by decide))
    have hstart : isStartCommand (c :: r) = false := by
      unfold isStartCommand
      rw [decide_eq_false_iff_not]
      intro heq
      rw [takeWhileConsTrue _ hsp, takeWhileConsTrue _ hat] at heq
      exact hne _ '/' ("/start".data) rfl (by decide) heq
    unfold selectHandler
    rw [hstart]
    rw [if_neg (by decide : ¬(false = true))]
    rw [if_neg h1, if_neg h2, if_neg h3, if_neg h4]
    rw [if_neg (hne r '📥' ("📥 Додати заробіток".data) rfl (by decide))]
    rw [if_neg h5]
    rw [if_neg (hne r '💸' ("💸 Додати витрати".data) rfl (by decide))]
    rw [if_neg h6]
    rw [if_neg (hne r '📊' ("📊 Моя статистика".data) rfl (by decide))]
    rw [if_pos (show dateShape (c :: r) = true from h)]

theorem dateShapeFilterFacts (l : List Char) (h : dateShape l = true) :
    isStartCommand l = false ∧
    l ≠ "📥 Додати заробіток".data ∧
    l ≠ "💸 Додати витрати".data := by
  have hpair := h
  unfold dateShape at hpair
  rw [Bool.and_eq_true] at hpair
  cases l with
  | nil => exact absurd hpair.2 (by decide)
  | cons c r =>
    have hd : pyIsDigit c = true := hpair.2
    have hne : ∀ (y : List Char) (x : Char) (lit : List Char),
        lit.head? = some x → pyIsDigit x = false → c :: y ≠ lit := by
      intro y x lit hl hx heq
      have hh : (c :: y).head? = lit.head? := congrArg List.head? heq
      rw [hl] at hh
      have hcc : c = x := Option.some.inj hh
      rw [hcc] at hd
      simp [hd] at hx
    have hsp : decide (c ≠ ' ') = true :=
      decide_eq_true (fun hcq => absurd (hcq ▸ hd) (by decide))
    have hat : decide (c ≠ '@') = true :=
      decide_eq_true (fun hcq => absurd (hcq ▸ hd) (by decide))
    refine ⟨?_, ?_, ?_⟩
    · unfold isStartCommand
      rw [decide_eq_false_iff_not]
      intro heq
      rw [takeWhileConsTrue _ hsp, takeWhileConsTrue _ hat] at heq
      exact hne _ '/' ("/start".data) rfl (by decide) heq
    · exact hne r '📥' ("📥 Додати заробіток".data) rfl (by decide)
    · exact hne r '💸' ("💸 Додати витрати".data) rfl (by decide)

/-- C3 (amended): every message containing a comma and starting with a
digit is routed to the period-report handler when the sender has no
active conversation state, and likewise from the two states without a
message handler of their own (the category-selection state and the
unusable report state); but whenever one of the six states with a
registered message handler is active — the four registration states and
the two amount states, e.g. mid-registration — that state's handler,
registered earlier, receives every such message instead. -/
theorem c3_amended_dispatch (l : List Char) (h : dateShape l = true) :
    (selectHandler none l = some MsgHandler.reportPeriodHandler ∧
      selectHandler (some FsmState.expType) l = some MsgHandler.reportPeriodHandler ∧
      selectHandler (some FsmState.reportOdd) l = some MsgHandler.reportPeriodHandler) ∧
    selectHandler (some FsmState.regName) l = some MsgHandler.processName ∧
    selectHandler (some FsmState.regNickname) l = some MsgHandler.processNickname ∧
    selectHandler (some FsmState.regCarModel) l = some MsgHandler.processCarModel ∧
    selectHandler (some FsmState.regCarNumber) l = some MsgHandler.processCarNumber ∧
    selectHandler (some FsmState.incAmount) l = some MsgHandler.addIncomeAmount ∧
    selectHandler (some FsmState.expAmount) l = some MsgHandler.addExpenseAmount := by
  obtain ⟨hstart, hm1, hm2⟩ := dateShapeFilterFacts l h
  refine ⟨⟨?_, ?_, ?_⟩, ?_, ?_, ?_, ?_, ?_, ?_⟩
  · exact selectHandlerDateShape none l h (by decide) (by decide) (by decide)
      (by decide) (by decide) (by decide)
  · exact selectHandlerDateShape (some FsmState.expType) l h (by decide) (by decide)
      (by decide) (by decide) (by decide) (by decide)
  · exact selectHandlerDateShape (some FsmState.reportOdd) l h (by decide) (by decide)
      (by decide) (by decide) (by decide) (by decide)
  · unfold selectHandler
    rw [hstart, if_neg (by decide : ¬(false = true)), if_pos rfl]
  · unfold selectHandler
    rw [hstart, if_neg (by decide : ¬(false = true))]
    rw [if_neg (by decide : ¬(some FsmState.regNickname = some FsmState.regName))]
    rw [if_pos rfl]
  · unfold selectHandler
    rw [hstart, if_neg (by decide : ¬(false = true))]
    rw [if_neg (by decide : ¬(some FsmState.regCarModel = some FsmState.regName))]
    rw [if_neg (by decide : ¬(some FsmState.regCarModel = some FsmState.regNickname))]
    rw [if_pos rfl]
  · unfold selectHandler
    rw [hstart, if_neg (by decide : ¬(false = true))]
    rw [if_neg (by decide : ¬(some FsmState.regCarNumber = some FsmState.regName))]
    rw [if_neg (by decide : ¬(some FsmState.regCarNumber = some FsmState.regNickname))]
    rw [if_neg (by decide : ¬(some FsmState.regCarNumber = some FsmState.regCarModel))]
    rw [if_pos rfl]
  · unfold selectHandler
    rw [hstart, if_neg (by decide : ¬(false = true))]
    rw [if_neg (by decide : ¬(some FsmState.incAmount = some FsmState.regName))]
    rw [if_neg (by decide : ¬(some FsmState.incAmount = some FsmState.regNickname))]
    rw [if_neg (by decide : ¬(some FsmState.incAmount = some FsmState.regCarModel))]
    rw [if_neg (by decide : ¬(some FsmState.incAmount = some FsmState.regCarNumber))]
    rw [if_neg hm1, if_pos rfl]
  · unfold selectHandler
    rw [hstart, if_neg (by decide : ¬(false = true))]
    rw [if_neg (by decide : ¬(some FsmState.expAmount = some FsmState.regName))]
    rw [if_neg (by decide : ¬(some FsmState.expAmount = some FsmState.regNickname))]
    rw [if_neg (by decide : ¬(some FsmState.expAmount = some FsmState.regCarModel))]
    rw [if_neg (by decide : ¬(some FsmState.expAmount = some FsmState.regCarNumber))]
    rw [if_neg hm1]
    rw [if_neg (by decide : ¬(some FsmState.expAmount = some FsmState.incAmount))]
    rw [if_neg hm2, if_pos rfl]

/-- C3 witness: the amended routing at the concrete spec input, idle and
mid-registration. -/
theorem c3_witness :
    dateShape ("2025-01-01,2025-01-31".data) = true ∧
    selectHandler none ("2025-01-01,2025-01-31".data) =
      some MsgHandler.reportPeriodHandler ∧
    selectHandler (some FsmState.regName) ("2025-01-01,2025-01-31".data) =
      some MsgHandler.processName := by
  refine ⟨by decide, ?_, ?_⟩
  · exact (c3_amended_dispatch ("2025-01-01,2025-01-31".data) (by decide)).1.1
  · exact (c3_amended_dispatch ("2025-01-01,2025-01-31".data) (by decide)).2.1

/-- C6 counterexample: two users register in an interleaved order, both
choosing a case variant of the same nickname while neither row is stored
yet; both nickname checks pass and both registrations complete, leaving
two stored users whose nicknames are equal up to case. -/
theorem c6_counterexample :
    ((runMsgs traceMsgs sys0).store.users.map (fun u => (u.user_id, u.nickname))) =
      [(1, some "nick"), (2, some "NICK")] ∧
    lowerAscii ("nick") = lowerAscii ("NICK") ∧
    ("nick" : String) ≠ ("NICK" : String) := by
  refine ⟨by decide, by decide, by decide⟩

/-- C6 (amended): the nickname step rejects, case-insensitively, every
nickname some stored user already holds, staying in place without
mutating store, state or accumulator; but the check runs against the
rows stored at the moment of the nickname step, not at persistence, so
it does not by itself keep case-variant nicknames out of the store when
registrations interleave. -/
theorem c6_amended_nickname_uniqueness (store : Store) (conv : Conv) (m n : String)
    (u : UserRow) (hu : u ∈ store.users) (hn : u.nickname = some n)
    (hc : lowerAscii n = lowerAscii (pyStrip m)) :
    process_nickname m store conv = (store, conv, [Reply.nicknameTaken]) := by
  have hex := nickname_exists_of_mem store u n (pyStrip m) hu hn hc
  simp [process_nickname, hex]

/-- C6 witness: once `Driver1` is stored, the case variant `DRIVER1` is
rejected with no change to store or conversation. -/
theorem c6_witness :
    process_nickname ("DRIVER1")
        ⟨[⟨1, none, none, some "Driver1", none, none, "uk", "weekly", none⟩], [], []⟩
        ⟨some FsmState.regNickname, {}⟩ =
      (⟨[⟨1, none, none, some "Driver1", none, none, "uk", "weekly", none⟩], [], []⟩,
        ⟨some FsmState.regNickname, {}⟩, [Reply.nicknameTaken]) := by
  exact c6_amended_nickname_uniqueness
    ⟨[⟨1, none, none, some "Driver1", none, none, "uk", "weekly", none⟩], [], []⟩
    ⟨some FsmState.regNickname, {}⟩ ("DRIVER1") ("Driver1")
    ⟨1, none, none, some "Driver1", none, none, "uk", "weekly", none⟩
    (by decide) rfl (by decide)

/-- C10: the taken-nickname check has no exemption for the requesting
user: whenever the sender's own stored row holds a nickname, submitting
any case variant of it at the nickname step is rejected with the taken
notice and no state change; and the `edit:name` callback re-enters the
registration chain at the name step, whose next step is that same
nickname check. -/
theorem c10_own_nickname_rejected (store : Store) (conv : Conv) (uid : Nat)
    (m n : String) (u : UserRow) (hu : u ∈ store.users) (_hid : u.user_id = uid)
    (hn : u.nickname = some n) (hc : lowerAscii n = lowerAscii (pyStrip m)) :
    process_nickname m store conv = (store, conv, [Reply.nicknameTaken]) ∧
    (edit_callback ("edit:name") store conv).2.1.st = some FsmState.regName := by
  constructor
  · have hex := nickname_exists_of_mem store u n (pyStrip m) hu hn hc
    simp [process_nickname, hex]
  · unfold edit_callback
    rw [if_pos (by decide : afterColon ("edit:name").data = "name".data)]

/-- C10 witness: a registered user resubmitting their own nickname
(exactly, and as a case variant) is rejected. -/
theorem c10_witness :
    process_nickname ("driver")
        ⟨[⟨5, some "A", some "Ivan", some "driver", some "Car", some "BC1234AB",
            "uk", "weekly", some 0⟩], [], []⟩
        ⟨some FsmState.regNickname, {}⟩ =
      (⟨[⟨5, some "A", some "Ivan", some "driver", some "Car", some "BC1234AB",
            "uk", "weekly", some 0⟩], [], []⟩,
        ⟨some FsmState.regNickname, {}⟩, [Reply.nicknameTaken]) ∧
    (edit_callback ("edit:name")
        ⟨[⟨5, some "A", some "Ivan", some "driver", some "Car", some "BC1234AB",
            "uk", "weekly", some 0⟩], [], []⟩
        ⟨some FsmState.regNickname, {}⟩).2.1.st = some FsmState.regName := by
  exact c10_own_nickname_rejected
    ⟨[⟨5, some "A", some "Ivan", some "driver", some "Car", some "BC1234AB",
        "uk", "weekly", some 0⟩], [], []⟩
    ⟨some FsmState.regNickname, {}⟩ 5 ("driver") ("driver")
    ⟨5, some "A", some "Ivan", some "driver", some "Car", some "BC1234AB",
      "uk", "weekly", some 0⟩
    (by decide) rfl rfl (by decide)

theorem stringExt (a b : String) (h : a.data = b.data) : a = b := by
  cases a
  cases b
  cases h
  rfl

theorem dropWhileLenLe (p : Char → Bool) : ∀ l : List Char,
    (l.dropWhile p).length ≤ l.length := by
  intro l
  induction l with
  | nil => exact Nat.le_refl 0
  | cons a t ih =>
    rw [List.dropWhile_cons]
    by_cases hp : p a = true
    · rw [if_pos hp]
      exact Nat.le_trans ih (by simp)
    · rw [if_neg hp]

theorem dropWhileConsSelfHead {p : Char → Bool} {a : Char} {t : List Char}
    (h : (a :: t).dropWhile p = a :: t) : p a = false := by
  cases hps : p a with
  | false => rfl
  | true =>
    rw [List.dropWhile_cons, if_pos (by rw [hps])] at h
    have hlen := congrArg List.length h
    have hle := dropWhileLenLe p t
    rw [List.length_cons] at hlen
    omega

theorem stripLDropWhile (l : List Char) :
    (stripL l).dropWhile pySpace = stripL l := by
  rw [show stripL l = List.rdropWhile pySpace (l.dropWhile pySpace) from rfl]
  cases hR : List.rdropWhile pySpace (l.dropWhile pySpace) with
  | nil => rfl
  | cons a t =>
    obtain ⟨u, hu⟩ := List.rdropWhile_prefix pySpace (l.dropWhile pySpace)
    rw [hR, List.cons_append] at hu
    have hA := List.dropWhile_idempotent pySpace l
    rw [← hu, List.dropWhile_cons] at hA
    have hpa : pySpace a = false := by
      cases hps : pySpace a with
      | false => rfl
      | true =>
        rw [if_pos (by rw [hps])] at hA
        have hlen := congrArg List.length hA
        have hle := dropWhileLenLe pySpace (t ++ u)
        rw [List.length_cons] at hlen
        omega
    rw [List.dropWhile_cons, if_neg (by rw [hpa]; exact Bool.false_ne_true)]

theorem stripLReverseDropWhile (l : List Char) :
    (stripL l).reverse.dropWhile pySpace = (stripL l).reverse := by
  rw [show stripL l = List.rdropWhile pySpace (l.dropWhile pySpace) from rfl]
  rw [List.rdropWhile, List.reverse_reverse]
  exact List.dropWhile_idempotent pySpace _

theorem dropWhileFilterMapUpper (y : List Char) (hy : y.dropWhile pySpace = y) :
    ((y.map upperChar).filter (fun c => decide (c.toNat ≠ 32))).dropWhile pySpace =
      (y.map upperChar).filter (fun c => decide (c.toNat ≠ 32)) := by
  cases y with
  | nil => rfl
  | cons c t =>
    have hpc : pySpace c = false := dropWhileConsSelfHead hy
    have h32 : c.toNat ≠ 32 := by
      unfold pySpace at hpc
      simp only [Bool.or_eq_false_iff, decide_eq_false_iff_not] at hpc
      omega
    have hu32 : (upperChar c).toNat ≠ 32 := by
      have ht := upperChar_toNat c
      split_ifs at ht <;> omega
    have hups : pySpace (upperChar c) = false := by
      rw [pySpace_upperChar]
      exact hpc
    rw [List.map_cons, List.filter_cons, if_pos (by simp [hu32])]
    rw [List.dropWhile_cons, if_neg (by rw [hups]; exact Bool.false_ne_true)]

theorem mapUpperFilterMapUpper (y : List Char) :
    (((y.map upperChar).filter (fun c => decide (c.toNat ≠ 32))).map upperChar) =
      (y.map upperChar).filter (fun c => decide (c.toNat ≠ 32)) := by
  induction y with
  | nil => rfl
  | cons c t ih =>
    rw [List.map_cons, List.filter_cons]
    cases hq : decide ((upperChar c).toNat ≠ 32) with
    | true =>
      rw [if_pos rfl, List.map_cons, ih, upperChar_idem]
    | false =>
      rw [if_neg Bool.false_ne_true, ih]

/-- C5: plate normalization is idempotent on every input string, the
spec's example `bc 1234 ab` normalizes to `BC1234AB` which matches the
plate grammar, and `BC12AB` fails the grammar. -/
theorem c5_plate_normalization :
    (∀ s : String, normalize_plate (normalize_plate s) = normalize_plate s) ∧
    normalize_plate ("bc 1234 ab") = "BC1234AB" ∧
    plate_matches ("BC1234AB") = true ∧
    plate_matches ("BC12AB") = false := by
  refine ⟨?_, by decide, by decide, by decide⟩
  intro s
  apply stringExt
  show ((stripL (((stripL s.data).map upperChar).filter
      (fun c => decide (c.toNat ≠ 32)))).map upperChar).filter
      (fun c => decide (c.toNat ≠ 32)) =
    ((stripL s.data).map upperChar).filter (fun c => decide (c.toNat ≠ 32))
  have hNfront := dropWhileFilterMapUpper (stripL s.data) (stripLDropWhile s.data)
  have hNrev : (((stripL s.data).map upperChar).filter
      (fun c => decide (c.toNat ≠ 32))).reverse =
      ((stripL s.data).reverse.map upperChar).filter
        (fun c => decide (c.toNat ≠ 32)) := by
    rw [List.map_reverse, List.filter_reverse]
  have hNback : (((stripL s.data).map upperChar).filter
      (fun c => decide (c.toNat ≠ 32))).reverse.dropWhile pySpace =
      (((stripL s.data).map upperChar).filter
        (fun c => decide (c.toNat ≠ 32))).reverse := by
    rw [hNrev]
    exact dropWhileFilterMapUpper ((stripL s.data).reverse) (stripLReverseDropWhile s.data)
  have hmapN := mapUpperFilterMapUpper (stripL s.data)
  have hfiltN : (((stripL s.data).map upperChar).filter
      (fun c => decide (c.toNat ≠ 32))).filter (fun c => decide (c.toNat ≠ 32)) =
      ((stripL s.data).map upperChar).filter (fun c => decide (c.toNat ≠ 32)) := by
    rw [List.filter_filter]
    congr 1
    funext a
    exact Bool.and_self _
  set N := ((stripL s.data).map upperChar).filter (fun c => decide (c.toNat ≠ 32)) with hN
  have hstripN : stripL N = N := by
    unfold stripL
    rw [hNfront, hNback, List.reverse_reverse]
  rw [hstripN, hmapN, hfiltN]

/-- C9 witness: a stored row with non-default language `en` and period
`monthly` is wholly replaced; the unsupplied columns come back as the
defaults `uk` and `weekly`, not the old values. -/
theorem c9_witness :
    (save_user ⟨[⟨1, some "A", some "Old", some "driver", some "Car", some "XX",
        "en", "monthly", some 5⟩], [], []⟩ 1 (some "A") (some "New") (some "driver2")
        (some "Car2") (some "BC1234AB") 9).users.filter (fun u => u.user_id == 1) =
      [⟨1, some "A", some "New", some "driver2", some "Car2", some "BC1234AB",
        "uk", "weekly", some 9⟩] ∧
    userById (save_user ⟨[⟨1, some "A", some "Old", some "driver", some "Car",
        some "XX", "en", "monthly", some 5⟩], [], []⟩ 1 (some "A") (some "New")
        (some "driver2") (some "Car2") (some "BC1234AB") 9) 1 =
      some ⟨1, some "A", some "New", some "driver2", some "Car2", some "BC1234AB",
        "uk", "weekly", some 9⟩ := by
  exact c9_save_user_overwrites
    ⟨[⟨1, some "A", some "Old", some "driver", some "Car", some "XX",
      "en", "monthly", some 5⟩], [], []⟩ 1 (some "A") (some "New") (some "driver2")
    (some "Car2") (some "BC1234AB") 9
    ⟨1, some "A", some "Old", some "driver", some "Car", some "XX",
      "en", "monthly", some 5⟩ (by decide)
